import Mathlib

set_option maxRecDepth 8000
set_option linter.unusedVariables false

/-!
Shallow embedding of the PolyGlot batch-conversion front-end.

The embedding follows the sources:
  * `src/types.ts` — the data model (`ProjectFile`, `ProjectAnalysis`,
    `ConversionReport`, `ConversionHistoryItem`, `FileStatus`, `Language`)
    and the pipeline-engine `analyzeProject` wrapper with its empty-project
    guard.
  * `src/services/geminiService.ts` — `GeminiConversionService`:
    `cleanJsonResponse`, `convertFileWithSplitting`.  The network call
    (`ai.models.generateContent`) is the external Gateway; its behaviour is
    an input to the model (`GatewayOutcome`): it either throws or yields a
    `response.text` value.  Everything the client does with that value
    (defaulting, markdown-fence stripping, `JSON.parse`, field extraction)
    is embedded executably.
  * `src/App.tsx` — the `runConversion` batch orchestrator: the per-file
    loop, pass-through of assets/config files, per-file try/catch, zip
    entry accumulation, history, progress updates and report synthesis.

Machine-level notes: JavaScript `Math.round(((i+1)/files.length)*100)` is
modelled by exact rational rounding `(200*k + n) / (2*n)` (floor of
100*k/n + 1/2).  For the concrete inputs used below the double-precision
evaluation agrees with the rational value (in particular, for k = 199,
n = 200 the JS product `(199/200)*100` is exactly the double `99.5`, and
`Math.round(99.5) = 100`, matching `jsRound100 199 200 = 100`).
-/

deriving instance DecidableEq for Except

namespace PolyGlot

/-- Output file descriptor `{ name; content; path }` as produced by the
conversion service (the anonymous shape in `src/types.ts`). -/
structure OutputFile where
  name : String
  content : String
  path : String
  deriving DecidableEq, Repr, Inhabited

/-- `FileStatus` from `src/types.ts` (the variant with `analyzing`). -/
inductive FileStatus where
  | idle
  | analyzing
  | processing
  | completed
  | error
  deriving DecidableEq, Repr, Inhabited

/-- `ProjectFile` from `src/types.ts`.  `originalFile` models the optional
browser `File` handle kept for binary assets; its payload is the raw
content that `zip.file(file.path, file.originalFile)` would store. -/
structure ProjectFile where
  id : String
  name : String
  path : String
  content : String
  outputFiles : List OutputFile
  status : FileStatus
  error : Option String := none
  isAsset : Bool := false
  originalFile : Option String := none
  deriving DecidableEq, Repr, Inhabited

/-- The `Language` union type from `src/types.ts`. -/
inductive Language where
  | python | java | javascript | typescript | cpp | go | rust | php | html | css
  deriving DecidableEq, Repr, Inhabited

/-- The string tag of a `Language` value (TS union members are these strings). -/
def Language.tag : Language → String
  | .python => "python"
  | .java => "java"
  | .javascript => "javascript"
  | .typescript => "typescript"
  | .cpp => "cpp"
  | .go => "go"
  | .rust => "rust"
  | .php => "php"
  | .html => "html"
  | .css => "css"

/-- Whether a string is one of the recognized `Language` tags. -/
def isRecognizedLanguageTag (s : String) : Bool :=
  ["python", "java", "javascript", "typescript", "cpp", "go", "rust", "php",
   "html", "css"].contains s

/-- `ProjectAnalysis` from `src/types.ts`.  The TS declaration types
`primaryLanguage` and `suggestedTarget` as `Language`, but the value comes
from `JSON.parse` of Gateway text with no runtime validation, so at runtime
they are arbitrary strings; the embedding therefore uses `String`. -/
structure ProjectAnalysis where
  projectType : String
  primaryLanguage : String
  framework : Option String := none
  ambiguousFiles : List String := []
  suggestedTarget : String := ""
  deriving DecidableEq, Repr, Inhabited

/-- `ConversionReport` from `src/types.ts`. -/
structure ConversionReport where
  timestamp : String
  detectedProjectType : String
  languagesFound : List String
  totalFiles : Nat
  convertedFiles : Nat
  splitsFound : Nat
  mergesFound : Nat
  manualReviewRequired : List String
  notes : String
  deriving DecidableEq, Repr, Inhabited

/-- `ConversionHistoryItem` from `src/types.ts` (the variant with
`fileId`/`filePath`). -/
structure ConversionHistoryItem where
  id : String
  fileId : String
  fileName : String
  filePath : String
  timestamp : String
  sourceLang : String
  targetLang : String
  originalContent : String
  outputFiles : List OutputFile
  deriving DecidableEq, Repr, Inhabited

/-- The `CONFIG_FILES` constant from `src/App.tsx`. -/
def CONFIG_FILES : List String :=
  ["package.json", "tsconfig.json", "vite.config.ts", "vite.config.js",
   "webpack.config.js", "pom.xml", "composer.json", "manifest.json",
   ".env", ".gitignore", "package-lock.json", "yarn.lock", "pnpm-lock.yaml"]

/-- The UI source-language selection: the `'auto'` sentinel or a fixed
`Language` (the TS type `Language | 'auto'`). -/
inductive SourceSel where
  | auto
  | fixed (l : Language)
  deriving DecidableEq, Repr

/-- The source-language resolution expression of `runConversion`
(`src/App.tsx` line 491):
`sourceLang === 'auto' ? (analysis?.primaryLanguage as Language || 'javascript') : sourceLang`.
The `as Language` cast is a compile-time no-op; `||` falls back exactly when
the value is falsy (absent analysis or empty string). -/
def effectiveSourceLang (sel : SourceSel) (analysis : Option ProjectAnalysis) : String :=
  match sel with
  | .auto =>
    match analysis with
    | some a => if a.primaryLanguage = "" then "javascript" else a.primaryLanguage
    | none => "javascript"
  | .fixed l => l.tag

/-! ### Character-list utilities (JS string operations used by the client) -/

/-- Whitespace stripped by JS `String.prototype.trim` (ASCII portion; the
full JS set also has Unicode spaces, which no embedded string uses). -/
def jsWsChar (c : Char) : Bool :=
  c = ' ' || c = '\n' || c = '\t' || c = '\r' || c = '\x0b' || c = '\x0c'

/-- JS `.trim()`. -/
def jsTrim (s : String) : String :=
  String.mk (((s.toList.dropWhile jsWsChar).reverse.dropWhile jsWsChar).reverse)

/-- Split a character list at the first occurrence of `pat`, returning the
part before the occurrence and the part after it. -/
def splitAtPattern (pat : List Char) : List Char → Option (List Char × List Char)
  | [] => if List.isPrefixOf pat ([] : List Char) then some ([], []) else none
  | c :: cs =>
    if List.isPrefixOf pat (c :: cs) then some ([], (c :: cs).drop pat.length)
    else
      match splitAtPattern pat cs with
      | some (before, after) => some (c :: before, after)
      | none => none

/-- Lazy (non-greedy) fenced-capture search: the earliest position where
`opener` matches and is later followed by `closer`; the capture is the text
between the first such `opener` and the first `closer` after it.  This is
the match semantics of the JS regexes in `cleanJsonResponse`
(`/(three backticks)json\n([s S]*?)\n(three backticks)/` and the variant
without the `json` tag), including backtracking past openers that have no
closer. -/
def fenceCapture (opener closer : List Char) : List Char → Option (List Char)
  | [] => none
  | c :: cs =>
    if List.isPrefixOf opener (c :: cs) then
      match splitAtPattern closer ((c :: cs).drop opener.length) with
      | some (cap, _) => some cap
      | none => fenceCapture opener closer cs
    else fenceCapture opener closer cs

/-- `GeminiConversionService.cleanJsonResponse` (`src/services/geminiService.ts`):
try the ```json fence, then the plain ``` fence, else keep the whole text;
an empty capture group is falsy in JS, so `jsonMatch[1] || text` falls back
to the full text; finally `.trim()`. -/
def cleanJsonResponse (text : String) : String :=
  let cs := text.toList
  let m1 := fenceCapture ("```json\n".toList) ("\n```".toList) cs
  let m :=
    match m1 with
    | some cap => some cap
    | none => fenceCapture ("```\n".toList) ("\n```".toList) cs
  match m with
  | some cap => if cap.isEmpty then jsTrim text else jsTrim (String.mk cap)
  | none => jsTrim text

/-! ### A small JSON value type and parser (the `JSON.parse` boundary)

The parser accepts standard JSON.  Deviations from the ECMA `JSON.parse`,
none of which any theorem below touches: number lexemes are collected
loosely (a superset of valid JSON numbers is accepted), and unescaped
control characters inside strings are accepted. -/

/-- JSON values; objects keep their fields in textual order. -/
inductive Json where
  | null
  | bool (b : Bool)
  | num (lexeme : String)
  | str (s : String)
  | arr (elems : List Json)
  | obj (fields : List (String × Json))

instance : Inhabited Json := ⟨Json.null⟩

/-- JSON structural whitespace. -/
def jsonWsChar (c : Char) : Bool :=
  c = ' ' || c = '\n' || c = '\t' || c = '\r'

/-- Drop leading JSON whitespace. -/
def skipWs (cs : List Char) : List Char := cs.dropWhile jsonWsChar

/-- Hexadecimal digit value. -/
def hexVal (c : Char) : Option Nat :=
  if '0' ≤ c ∧ c ≤ '9' then some (c.toNat - '0'.toNat)
  else if 'a' ≤ c ∧ c ≤ 'f' then some (c.toNat - 'a'.toNat + 10)
  else if 'A' ≤ c ∧ c ≤ 'F' then some (c.toNat - 'A'.toNat + 10)
  else none

/-- Single-character JSON string escapes. -/
def escChar (c : Char) : Option Char :=
  if c = '"' then some '"'
  else if c = '\\' then some '\\'
  else if c = '/' then some '/'
  else if c = 'b' then some '\x08'
  else if c = 'f' then some '\x0c'
  else if c = 'n' then some '\n'
  else if c = 'r' then some '\r'
  else if c = 't' then some '\t'
  else none

/-- Parse the body of a JSON string (after the opening quote), fuelled. -/
def pStr : Nat → String → List Char → Option (String × List Char)
  | 0, _, _ => none
  | _, _, [] => none
  | fuel + 1, acc, c :: rest =>
    if c = '"' then some (acc, rest)
    else if c = '\\' then
      match rest with
      | 'u' :: h1 :: h2 :: h3 :: h4 :: rest2 =>
        match hexVal h1, hexVal h2, hexVal h3, hexVal h4 with
        | some a, some b, some c2, some d =>
          pStr fuel (acc.push (Char.ofNat (((a * 16 + b) * 16 + c2) * 16 + d))) rest2
        | _, _, _, _ => none
      | e :: rest2 =>
        match escChar e with
        | some ch => pStr fuel (acc.push ch) rest2
        | none => none
      | [] => none
    else pStr fuel (acc.push c) rest

/-- Characters collected into a number lexeme. -/
def numChar (c : Char) : Bool :=
  c.isDigit || c = '-' || c = '+' || c = '.' || c = 'e' || c = 'E'

mutual

/-- Parse one JSON value, fuelled. -/
def pVal : Nat → List Char → Option (Json × List Char)
  | 0, _ => none
  | fuel + 1, cs =>
    match skipWs cs with
    | [] => none
    | '"' :: rest =>
      match pStr (rest.length + 1) "" rest with
      | some (s, r) => some (Json.str s, r)
      | none => none
    | '\x7b' :: rest => pObj fuel rest
    | '[' :: rest => pArr fuel rest
    | c :: rest =>
      if List.isPrefixOf "true".toList (c :: rest) then
        some (Json.bool true, (c :: rest).drop 4)
      else if List.isPrefixOf "false".toList (c :: rest) then
        some (Json.bool false, (c :: rest).drop 5)
      else if List.isPrefixOf "null".toList (c :: rest) then
        some (Json.null, (c :: rest).drop 4)
      else if c.isDigit || c = '-' then
        some (Json.num (String.mk ((c :: rest).takeWhile numChar)),
              (c :: rest).dropWhile numChar)
      else none

/-- Parse a JSON object after the opening brace, fuelled. -/
def pObj : Nat → List Char → Option (Json × List Char)
  | 0, _ => none
  | fuel + 1, cs =>
    match skipWs cs with
    | '\x7d' :: rest => some (Json.obj [], rest)
    | other => pMembers fuel other []

/-- Parse object members (key, colon, value, separated by commas), fuelled. -/
def pMembers : Nat → List Char → List (String × Json) → Option (Json × List Char)
  | 0, _, _ => none
  | fuel + 1, cs, acc =>
    match skipWs cs with
    | '"' :: rest =>
      match pStr (rest.length + 1) "" rest with
      | some (key, r1) =>
        match skipWs r1 with
        | ':' :: r2 =>
          match pVal fuel r2 with
          | some (v, r3) =>
            match skipWs r3 with
            | ',' :: r4 => pMembers fuel r4 (acc ++ [(key, v)])
            | '\x7d' :: r4 => some (Json.obj (acc ++ [(key, v)]), r4)
            | _ => none
          | none => none
        | _ => none
      | none => none
    | _ => none

/-- Parse a JSON array after the opening bracket, fuelled. -/
def pArr : Nat → List Char → Option (Json × List Char)
  | 0, _ => none
  | fuel + 1, cs =>
    match skipWs cs with
    | ']' :: rest => some (Json.arr [], rest)
    | other => pElems fuel other []

/-- Parse array elements, fuelled. -/
def pElems : Nat → List Char → List Json → Option (Json × List Char)
  | 0, _, _ => none
  | fuel + 1, cs, acc =>
    match pVal fuel cs with
    | some (v, r1) =>
      match skipWs r1 with
      | ',' :: r2 => pElems fuel r2 (acc ++ [v])
      | ']' :: r2 => some (Json.arr (acc ++ [v]), r2)
      | _ => none
    | none => none

end

/-- `JSON.parse`: parse the whole string as one JSON value (trailing
whitespace allowed), `none` where `JSON.parse` throws a `SyntaxError`. -/
def parseJson (s : String) : Option Json :=
  match pVal (4 * (s.length + 1)) s.toList with
  | some (j, rest) => if skipWs rest = [] then some j else none
  | none => none

/-! ### Response extraction (`result.files || []`) -/

/-- Field access on a parsed JS object: for duplicate keys `JSON.parse`
keeps the last occurrence. -/
def lookupLast (fields : List (String × Json)) (key : String) : Option Json :=
  ((fields.filter (fun p => p.1 = key)).getLast?).map Prod.snd

/-- String payload of a JSON value, if it is one. -/
def getStr : Json → Option String
  | Json.str s => some s
  | _ => none

/-- One element of the `files` array.  The source trusts the Gateway's
declared response schema (`name`, `path`, `content` all required strings)
and never validates; a missing or non-string field is modelled as `""`
where JS would carry `undefined` through. -/
def decodeOutputFile (j : Json) : OutputFile :=
  match j with
  | Json.obj fields =>
    { name := ((lookupLast fields "name").bind getStr).getD ""
      content := ((lookupLast fields "content").bind getStr).getD ""
      path := ((lookupLast fields "path").bind getStr).getD "" }
  | _ => { name := "", content := "", path := "" }

/-- `result.files || []`: the `files` array of the parsed object, or `[]`
when the field is absent or the parse result is not an object (property
access on a JSON primitive or array autoboxes in JS and yields `undefined`,
hence `[]`; the `null` case, where the access itself throws, is handled one
level up in `convertFileWithSplitting`).  A `files` field that is present
but not an array is returned as-is by the program — an ill-typed value this
model cannot represent and maps to `[]`; no theorem below relies on the
behaviour at such replies. -/
def extractFiles : Json → List OutputFile
  | Json.obj fields =>
    match lookupLast fields "files" with
    | some (Json.arr elems) => elems.map decodeOutputFile
    | _ => []
  | _ => []

/-! ### The Conversion Client (`convertFileWithSplitting`) -/

/-- Behaviour of one Gateway call (`ai.models.generateContent`), which is
outside the program: it either throws, or resolves with a `response` whose
`text` field is missing (`none`) or some string. -/
inductive GatewayOutcome where
  | throws (msg : String)
  | replies (text : Option String)
  deriving DecidableEq, Repr

/-- The error message thrown by the catch block of
`convertFileWithSplitting` (`src/services/geminiService.ts`). -/
def convertErrorMessage (file : ProjectFile) : String :=
  "Failed to convert " ++ file.name ++
    ". The AI model may be overloaded or the file contains unsupported constructs."

/-- The default used for a falsy `response.text`. -/
def defaultFilesJson : String := "\x7b\"files\": []\x7d"

/-- `response.text || '\x7b"files": []\x7d'`: a missing (`none`) or empty
text field is falsy in JS and is replaced by the default. -/
def rawText (t : Option String) : String :=
  match t with
  | none => defaultFilesJson
  | some s => if s = "" then defaultFilesJson else s

/-- `GeminiConversionService.convertFileWithSplitting`
(`src/services/geminiService.ts`).  `sourceLang`, `targetLang` and
`autoSplit` only shape the prompt sent to the Gateway; the Gateway's reply
is the `outcome` argument, so they do not appear in the body.  Any failure
inside the `try` is caught and rethrown as the fixed conversion error:
the call throwing, `JSON.parse` throwing on the cleaned text, and also the
property access `result.files` throwing a `TypeError` when the text parses
to JSON `null` (on every other parse result the access succeeds, yielding
`undefined` and hence `[]` for non-objects). -/
def convertFileWithSplitting (file : ProjectFile) (sourceLang : String)
    (targetLang : Language) (autoSplit : Bool) (outcome : GatewayOutcome) :
    Except String (List OutputFile) :=
  match outcome with
  | GatewayOutcome.throws _ => Except.error (convertErrorMessage file)
  | GatewayOutcome.replies t =>
    match parseJson (cleanJsonResponse (rawText t)) with
    | none => Except.error (convertErrorMessage file)
    | some Json.null => Except.error (convertErrorMessage file)
    | some j => Except.ok (extractFiles j)

/-! ### The Batch Orchestrator (`runConversion` in `src/App.tsx`) -/

/-- `Math.round(((i + 1) / files.length) * 100)` with `k = i + 1` and
`n = files.length`, as exact rational round-half-up:
`floor(100*k/n + 1/2) = (200*k + n) / (2*n)` in natural division. -/
def jsRound100 (k n : Nat) : Nat := (200 * k + n) / (2 * n)

/-- Content stored for a pass-through (asset/config) file:
`file.isAsset && file.originalFile ? file.originalFile : file.content`. -/
def passZipContent (file : ProjectFile) : String :=
  if file.isAsset then file.originalFile.getD file.content else file.content

/-- `file.isAsset || CONFIG_FILES.includes(file.name)` — the pass-through
test at the top of the loop body. -/
def isPassThrough (file : ProjectFile) : Bool :=
  file.isAsset || CONFIG_FILES.contains file.name

/-- The history entry pushed after a successful conversion.  `ts` stands
for the ambient clock (`Date.now()` / `toLocaleTimeString()`), a run-level
input of the model. -/
def mkHistoryItem (file : ProjectFile) (eff : String) (target : Language)
    (ts : String) (resultFiles : List OutputFile) : ConversionHistoryItem :=
  { id := "hist-" ++ ts ++ "-" ++ file.id
    fileId := file.id
    fileName := file.name
    filePath := file.path
    timestamp := ts
    sourceLang := eff
    targetLang := target.tag
    originalContent := file.content
    outputFiles := resultFiles }

/-- Mutable locals of `runConversion` while the loop runs.  `zipEntries`
records `zip.file(path, content)` calls in order (a later write to the same
path overwrites in JSZip); `progressTrace` records every `setProgress`
value in order. -/
structure RunState where
  filesState : List ProjectFile
  zipEntries : List (String × String)
  newHistory : List ConversionHistoryItem
  splits : Nat
  convertedCount : Nat
  preservedCount : Nat
  errorCount : Nat
  errors : List String
  progressTrace : List Nat
  deriving DecidableEq, Repr

/-- One iteration of the `for` loop of `runConversion` for the pair
`(i, file)` (`file = files[i]` of the captured input list).  The two
`setFiles` updater calls are modelled as two sequential maps over the
files state, exactly as the source performs them. -/
def convStep (eff : String) (targetLang : Language) (autoSplit : Bool)
    (n : Nat) (oracle : Nat → GatewayOutcome) (ts : String)
    (st : RunState) (pr : Nat × ProjectFile) : RunState :=
  let i := pr.1
  let file := pr.2
  if isPassThrough file then
    { st with
      preservedCount := st.preservedCount + 1
      zipEntries := st.zipEntries ++ [(file.path, passZipContent file)]
      progressTrace := st.progressTrace ++ [jsRound100 (i + 1) n] }
  else
    let files1 := st.filesState.map
      (fun f => if f.id = file.id then { f with status := FileStatus.processing } else f)
    match convertFileWithSplitting file eff targetLang autoSplit (oracle i) with
    | Except.ok resultFiles =>
      { st with
        filesState := files1.map
          (fun f => if f.id = file.id then
            { f with status := FileStatus.completed, outputFiles := resultFiles } else f)
        splits := st.splits + (if resultFiles.length > 1 then 1 else 0)
        convertedCount := st.convertedCount + 1
        zipEntries := st.zipEntries ++ resultFiles.map (fun rf => (rf.path, rf.content))
        newHistory := st.newHistory ++ [mkHistoryItem file eff targetLang ts resultFiles]
        progressTrace := st.progressTrace ++ [jsRound100 (i + 1) n] }
    | Except.error msg =>
      { st with
        filesState := files1.map
          (fun f => if f.id = file.id then
            { f with status := FileStatus.error, error := some msg } else f)
        errorCount := st.errorCount + 1
        errors := st.errors ++ [file.name]
        zipEntries := st.zipEntries ++ [(file.path, file.content)]
        progressTrace := st.progressTrace ++ [jsRound100 (i + 1) n] }

/-- Minimal JSON string escaping for the serialized report. -/
def jsonEscapeChar (c : Char) : String :=
  if c = '"' then "\\\""
  else if c = '\\' then "\\\\"
  else if c = '\n' then "\\n"
  else if c = '\r' then "\\r"
  else if c = '\t' then "\\t"
  else String.mk [c]

/-- Escape a string for JSON output. -/
def jsonEscape (s : String) : String := String.join (s.toList.map jsonEscapeChar)

/-- A quoted JSON string. -/
def quoteStr (s : String) : String := "\"" ++ jsonEscape s ++ "\""

/-- A JSON array of strings. -/
def strArrJson (l : List String) : String :=
  "[" ++ String.intercalate "," (l.map quoteStr) ++ "]"

/-- Serialization of the report for
`zip.file("conversion_report.json", JSON.stringify(conversionReport, null, 2))`.
The two-space pretty formatting of `JSON.stringify` is not reproduced
byte-for-byte (no claim reads the bytes of this entry; only its presence
and path matter). -/
def reportJsonContent (r : ConversionReport) : String :=
  "\x7b\"timestamp\":" ++ quoteStr r.timestamp ++
  ",\"detectedProjectType\":" ++ quoteStr r.detectedProjectType ++
  ",\"languagesFound\":" ++ strArrJson r.languagesFound ++
  ",\"totalFiles\":" ++ toString r.totalFiles ++
  ",\"convertedFiles\":" ++ toString r.convertedFiles ++
  ",\"splitsFound\":" ++ toString r.splitsFound ++
  ",\"mergesFound\":" ++ toString r.mergesFound ++
  ",\"manualReviewRequired\":" ++ strArrJson r.manualReviewRequired ++
  ",\"notes\":" ++ quoteStr r.notes ++ "\x7d"

/-- Result of one `runConversion` run: final files state, zip entries (in
write order), the new history items of this run, the resulting bounded
history, the synthesized report, and the trace of progress values. -/
structure RunResult where
  filesState : List ProjectFile
  zipEntries : List (String × String)
  newHistoryItems : List ConversionHistoryItem
  history : List ConversionHistoryItem
  report : ConversionReport
  progressTrace : List Nat
  deriving DecidableEq, Repr

/-- The initial values of the loop locals (empty zip, zeroed counters,
`setProgress(0)` recorded). -/
def initState (files : List ProjectFile) : RunState :=
  { filesState := files, zipEntries := [], newHistory := [], splits := 0,
    convertedCount := 0, preservedCount := 0, errorCount := 0, errors := [],
    progressTrace := [0] }

/-- `runConversion` (`src/App.tsx` lines 477-574).  Inputs: the captured
`files` state, the previous `history` state, the current `analysis`,
source-language selection, target language, `autoSplit`, the Gateway's
behaviour for the call made in iteration `i` (`oracle i`), and the ambient
clock `ts`. -/
def runConversion (files : List ProjectFile)
    (prevHistory : List ConversionHistoryItem)
    (analysis : Option ProjectAnalysis) (sourceSel : SourceSel)
    (targetLang : Language) (autoSplit : Bool)
    (oracle : Nat → GatewayOutcome) (ts : String) : RunResult :=
  let eff := effectiveSourceLang sourceSel analysis
  let st0 : RunState := initState files
  let stF := (files.enum).foldl (convStep eff targetLang autoSplit files.length oracle ts) st0
  let report : ConversionReport :=
    { timestamp := ts
      detectedProjectType :=
        match analysis with
        | some a => if a.projectType = "" then "Generic Codebase" else a.projectType
        | none => "Generic Codebase"
      languagesFound :=
        match analysis with
        | some a => [a.primaryLanguage]
        | none => []
      totalFiles := files.length
      convertedFiles := stF.convertedCount
      splitsFound := stF.splits
      mergesFound := 0
      manualReviewRequired := stF.errors
      notes := "Strict migration engine: " ++ toString stF.convertedCount ++
        " bestanden geconverteerd." }
  { filesState := stF.filesState
    zipEntries := stF.zipEntries ++ [("conversion_report.json", reportJsonContent report)]
    newHistoryItems := stF.newHistory
    history := (stF.newHistory ++ prevHistory).take 50
    report := report
    progressTrace := stF.progressTrace }

/-! ### The Project Analyzer wrapper (`analyzeProject` in `src/types.ts`) -/

/-- Result of one call to the pipeline-engine `analyzeProject` wrapper:
what the promise resolves or rejects with, and how many Gateway calls
(`conversionService.analyzeProject` invocations) were made. -/
structure AnalyzeCall where
  result : Except String ProjectAnalysis
  gatewayCalls : Nat
  deriving Repr

/-- The pipeline-engine `analyzeProject` (`src/types.ts`): throws
`"No files provided for analysis"` for an empty file list before any
service call; otherwise forwards to `conversionService.analyzeProject`,
whose behaviour is the `service` input. -/
def analyzeProject (files : List ProjectFile)
    (service : Except String ProjectAnalysis) : AnalyzeCall :=
  if files.length = 0 then
    { result := Except.error "No files provided for analysis", gatewayCalls := 0 }
  else
    { result := service, gatewayCalls := 1 }

end PolyGlot

namespace PolyGlot

/-! ### Per-iteration characterization of the batch loop

Each definition below captures the contribution of one loop iteration
`(i, file)` of `runConversion` to one of the mutable locals; the foldl
lemmas that follow show the loop is exactly the concatenation/sum of these
contributions. -/

section Characterization

variable (eff : String) (tgt : Language) (autoSplit : Bool) (n : Nat)
variable (oracle : Nat → GatewayOutcome) (ts : String)

/-- Zip entries written during iteration `(i, file)`. -/
def perFileZip (pr : Nat × ProjectFile) : List (String × String) :=
  if isPassThrough pr.2 then [(pr.2.path, passZipContent pr.2)]
  else
    match convertFileWithSplitting pr.2 eff tgt autoSplit (oracle pr.1) with
    | Except.ok rs => rs.map (fun rf => (rf.path, rf.content))
    | Except.error _ => [(pr.2.path, pr.2.content)]

/-- History items pushed during iteration `(i, file)`. -/
def perFileHistory (pr : Nat × ProjectFile) : List ConversionHistoryItem :=
  if isPassThrough pr.2 then []
  else
    match convertFileWithSplitting pr.2 eff tgt autoSplit (oracle pr.1) with
    | Except.ok rs => [mkHistoryItem pr.2 eff tgt ts rs]
    | Except.error _ => []

/-- Contribution of iteration `(i, file)` to the `splits` counter. -/
def splitContrib (pr : Nat × ProjectFile) : Nat :=
  if isPassThrough pr.2 then 0
  else
    match convertFileWithSplitting pr.2 eff tgt autoSplit (oracle pr.1) with
    | Except.ok rs => if rs.length > 1 then 1 else 0
    | Except.error _ => 0

/-- Contribution of iteration `(i, file)` to the `convertedCount` counter. -/
def convContrib (pr : Nat × ProjectFile) : Nat :=
  if isPassThrough pr.2 then 0
  else
    match convertFileWithSplitting pr.2 eff tgt autoSplit (oracle pr.1) with
    | Except.ok _ => 1
    | Except.error _ => 0

/-- Contribution of iteration `(i, file)` to the `preservedCount` counter. -/
def presContrib (pr : Nat × ProjectFile) : Nat :=
  if isPassThrough pr.2 then 1 else 0

/-- Contribution of iteration `(i, file)` to the `errorCount` counter. -/
def errCntContrib (pr : Nat × ProjectFile) : Nat :=
  if isPassThrough pr.2 then 0
  else
    match convertFileWithSplitting pr.2 eff tgt autoSplit (oracle pr.1) with
    | Except.ok _ => 0
    | Except.error _ => 1

/-- Names pushed onto the `errors` list during iteration `(i, file)`. -/
def errNames (pr : Nat × ProjectFile) : List String :=
  if isPassThrough pr.2 then []
  else
    match convertFileWithSplitting pr.2 eff tgt autoSplit (oracle pr.1) with
    | Except.ok _ => []
    | Except.error _ => [pr.2.name]

/-- The effect of iteration `(i, file)` on the files state (the two
`setFiles` maps, or nothing for pass-through files). -/
def stepFiles (fs : List ProjectFile) (pr : Nat × ProjectFile) : List ProjectFile :=
  if isPassThrough pr.2 then fs
  else
    let files1 := fs.map
      (fun f => if f.id = pr.2.id then { f with status := FileStatus.processing } else f)
    match convertFileWithSplitting pr.2 eff tgt autoSplit (oracle pr.1) with
    | Except.ok rs => files1.map
        (fun f => if f.id = pr.2.id then
          { f with status := FileStatus.completed, outputFiles := rs } else f)
    | Except.error m => files1.map
        (fun f => if f.id = pr.2.id then
          { f with status := FileStatus.error, error := some m } else f)

/-- The effect of iteration `(i, file)` on a single files-state entry. -/
def stepEntry (pr : Nat × ProjectFile) (f : ProjectFile) : ProjectFile :=
  if isPassThrough pr.2 then f
  else if f.id = pr.2.id then
    match convertFileWithSplitting pr.2 eff tgt autoSplit (oracle pr.1) with
    | Except.ok rs => { f with status := FileStatus.completed, outputFiles := rs }
    | Except.error m => { f with status := FileStatus.error, error := some m }
  else f

/-- The final state of the entry for `file = files[i]` after its own
iteration (pass-through files keep their entry untouched). -/
def fileOutcome (i : Nat) (file : ProjectFile) : ProjectFile :=
  if isPassThrough file then file
  else
    match convertFileWithSplitting file eff tgt autoSplit (oracle i) with
    | Except.ok rs => { file with status := FileStatus.completed, outputFiles := rs }
    | Except.error m => { file with status := FileStatus.error, error := some m }

/-- Evolution of one files-state entry across a sequence of iterations. -/
def entryEvolution (l : List (Nat × ProjectFile)) (f : ProjectFile) : ProjectFile :=
  l.foldl (fun x pr => stepEntry eff tgt autoSplit oracle pr x) f

theorem convStep_zipEntries (st : RunState) (pr : Nat × ProjectFile) :
    (convStep eff tgt autoSplit n oracle ts st pr).zipEntries
      = st.zipEntries ++ perFileZip eff tgt autoSplit oracle pr := by
  unfold convStep perFileZip
  cases h : isPassThrough pr.2
  · cases hc : convertFileWithSplitting pr.2 eff tgt autoSplit (oracle pr.1) <;> simp [h, hc]
  · simp [h]

theorem convStep_progressTrace (st : RunState) (pr : Nat × ProjectFile) :
    (convStep eff tgt autoSplit n oracle ts st pr).progressTrace
      = st.progressTrace ++ [jsRound100 (pr.1 + 1) n] := by
  unfold convStep
  cases h : isPassThrough pr.2
  · cases hc : convertFileWithSplitting pr.2 eff tgt autoSplit (oracle pr.1) <;> simp [h, hc]
  · simp [h]

theorem convStep_newHistory (st : RunState) (pr : Nat × ProjectFile) :
    (convStep eff tgt autoSplit n oracle ts st pr).newHistory
      = st.newHistory ++ perFileHistory eff tgt autoSplit oracle ts pr := by
  unfold convStep perFileHistory
  cases h : isPassThrough pr.2
  · cases hc : convertFileWithSplitting pr.2 eff tgt autoSplit (oracle pr.1) <;> simp [h, hc]
  · simp [h]

theorem convStep_splits (st : RunState) (pr : Nat × ProjectFile) :
    (convStep eff tgt autoSplit n oracle ts st pr).splits
      = st.splits + splitContrib eff tgt autoSplit oracle pr := by
  unfold convStep splitContrib
  cases h : isPassThrough pr.2
  · cases hc : convertFileWithSplitting pr.2 eff tgt autoSplit (oracle pr.1) <;> simp [h, hc]
  · simp [h]

theorem convStep_convertedCount (st : RunState) (pr : Nat × ProjectFile) :
    (convStep eff tgt autoSplit n oracle ts st pr).convertedCount
      = st.convertedCount + convContrib eff tgt autoSplit oracle pr := by
  unfold convStep convContrib
  cases h : isPassThrough pr.2
  · cases hc : convertFileWithSplitting pr.2 eff tgt autoSplit (oracle pr.1) <;> simp [h, hc]
  · simp [h]

theorem convStep_errors (st : RunState) (pr : Nat × ProjectFile) :
    (convStep eff tgt autoSplit n oracle ts st pr).errors
      = st.errors ++ errNames eff tgt autoSplit oracle pr := by
  unfold convStep errNames
  cases h : isPassThrough pr.2
  · cases hc : convertFileWithSplitting pr.2 eff tgt autoSplit (oracle pr.1) <;> simp [h, hc]
  · simp [h]

theorem convStep_filesState (st : RunState) (pr : Nat × ProjectFile) :
    (convStep eff tgt autoSplit n oracle ts st pr).filesState
      = stepFiles eff tgt autoSplit oracle st.filesState pr := by
  unfold convStep stepFiles
  cases h : isPassThrough pr.2
  · cases hc : convertFileWithSplitting pr.2 eff tgt autoSplit (oracle pr.1) <;> simp [h, hc]
  · simp [h]

theorem foldl_convStep_zipEntries (l : List (Nat × ProjectFile)) (st : RunState) :
    (l.foldl (convStep eff tgt autoSplit n oracle ts) st).zipEntries
      = st.zipEntries ++ l.flatMap (perFileZip eff tgt autoSplit oracle) := by
  induction l generalizing st with
  | nil => simp
  | cons a l ih =>
    simp only [List.foldl_cons, ih, convStep_zipEntries, List.flatMap_cons, List.append_assoc]

theorem foldl_convStep_progressTrace (l : List (Nat × ProjectFile)) (st : RunState) :
    (l.foldl (convStep eff tgt autoSplit n oracle ts) st).progressTrace
      = st.progressTrace ++ l.map (fun pr => jsRound100 (pr.1 + 1) n) := by
  induction l generalizing st with
  | nil => simp
  | cons a l ih =>
    simp only [List.foldl_cons, ih, convStep_progressTrace, List.map_cons, List.append_assoc,
      List.singleton_append, List.cons_append, List.nil_append]

theorem foldl_convStep_newHistory (l : List (Nat × ProjectFile)) (st : RunState) :
    (l.foldl (convStep eff tgt autoSplit n oracle ts) st).newHistory
      = st.newHistory ++ l.flatMap (perFileHistory eff tgt autoSplit oracle ts) := by
  induction l generalizing st with
  | nil => simp
  | cons a l ih =>
    simp only [List.foldl_cons, ih, convStep_newHistory, List.flatMap_cons, List.append_assoc]

theorem foldl_convStep_splits (l : List (Nat × ProjectFile)) (st : RunState) :
    (l.foldl (convStep eff tgt autoSplit n oracle ts) st).splits
      = st.splits + (l.map (splitContrib eff tgt autoSplit oracle)).sum := by
  induction l generalizing st with
  | nil => simp
  | cons a l ih =>
    simp only [List.foldl_cons, ih, convStep_splits, List.map_cons, List.sum_cons]
    omega

theorem foldl_convStep_convertedCount (l : List (Nat × ProjectFile)) (st : RunState) :
    (l.foldl (convStep eff tgt autoSplit n oracle ts) st).convertedCount
      = st.convertedCount + (l.map (convContrib eff tgt autoSplit oracle)).sum := by
  induction l generalizing st with
  | nil => simp
  | cons a l ih =>
    simp only [List.foldl_cons, ih, convStep_convertedCount, List.map_cons, List.sum_cons]
    omega

theorem foldl_convStep_errors (l : List (Nat × ProjectFile)) (st : RunState) :
    (l.foldl (convStep eff tgt autoSplit n oracle ts) st).errors
      = st.errors ++ l.flatMap (errNames eff tgt autoSplit oracle) := by
  induction l generalizing st with
  | nil => simp
  | cons a l ih =>
    simp only [List.foldl_cons, ih, convStep_errors, List.flatMap_cons, List.append_assoc]

theorem foldl_convStep_filesState (l : List (Nat × ProjectFile)) (st : RunState) :
    (l.foldl (convStep eff tgt autoSplit n oracle ts) st).filesState
      = l.foldl (stepFiles eff tgt autoSplit oracle) st.filesState := by
  induction l generalizing st with
  | nil => rfl
  | cons a l ih =>
    simp only [List.foldl_cons, ih, convStep_filesState]

theorem stepFiles_eq_map (fs : List ProjectFile) (pr : Nat × ProjectFile) :
    stepFiles eff tgt autoSplit oracle fs pr = fs.map (stepEntry eff tgt autoSplit oracle pr) := by
  unfold stepFiles stepEntry
  cases h : isPassThrough pr.2
  · cases hc : convertFileWithSplitting pr.2 eff tgt autoSplit (oracle pr.1)
    all_goals
      simp only [h, Bool.false_eq_true, if_false, hc, List.map_map]
      apply List.map_congr_left
      intro f _
      by_cases hf : f.id = pr.2.id <;> simp [hf, Function.comp]
  · simp [h]

theorem foldl_stepFiles_eq_map (l : List (Nat × ProjectFile)) (fs : List ProjectFile) :
    l.foldl (stepFiles eff tgt autoSplit oracle) fs
      = fs.map (entryEvolution eff tgt autoSplit oracle l) := by
  induction l generalizing fs with
  | nil =>
    show fs = fs.map (fun f => f)
    simp
  | cons a l ih =>
    rw [List.foldl_cons, ih, stepFiles_eq_map, List.map_map]
    rfl

theorem stepEntry_of_ne (pr : Nat × ProjectFile) (f : ProjectFile) (h : f.id ≠ pr.2.id) :
    stepEntry eff tgt autoSplit oracle pr f = f := by
  unfold stepEntry
  cases hp : isPassThrough pr.2 <;> simp [h]

theorem entryEvolution_of_ne (l : List (Nat × ProjectFile)) (f : ProjectFile)
    (h : ∀ pr ∈ l, pr.2.id ≠ f.id) :
    entryEvolution eff tgt autoSplit oracle l f = f := by
  induction l with
  | nil => rfl
  | cons a l ih =>
    have ha : f.id ≠ a.2.id := fun he => (h a (List.mem_cons_self a l)) he.symm
    show entryEvolution eff tgt autoSplit oracle l (stepEntry eff tgt autoSplit oracle a f) = f
    rw [stepEntry_of_ne eff tgt autoSplit oracle a f ha]
    exact ih (fun pr hpr => h pr (List.mem_cons_of_mem a hpr))

theorem stepEntry_self (i : Nat) (file : ProjectFile) :
    stepEntry eff tgt autoSplit oracle (i, file) file
      = fileOutcome eff tgt autoSplit oracle i file := by
  unfold stepEntry fileOutcome
  cases h : isPassThrough file <;> simp [h]

theorem fileOutcome_id (i : Nat) (file : ProjectFile) :
    (fileOutcome eff tgt autoSplit oracle i file).id = file.id := by
  unfold fileOutcome
  cases h : isPassThrough file
  · cases hc : convertFileWithSplitting file eff tgt autoSplit (oracle i) <;> simp [h, hc]
  · simp [h]

/-- With pairwise-distinct ids and `k ≠ j`, the `k`-th and `j`-th files
have different ids. -/
theorem nodup_ids_ne (files : List ProjectFile)
    (hids : (files.map ProjectFile.id).Nodup)
    (k j : Nat) (hk : k < files.length) (hj : j < files.length) (hne : k ≠ j) :
    (files[k]).id ≠ (files[j]).id := by
  intro he
  have hk2 : k < (files.map ProjectFile.id).length := by simpa using hk
  have hj2 : j < (files.map ProjectFile.id).length := by simpa using hj
  have : (files.map ProjectFile.id)[k] = (files.map ProjectFile.id)[j] := by
    simpa [List.getElem_map] using he
  exact hne (hids.getElem_inj_iff.mp this)

/-- With distinct ids, only the `j`-th iteration touches the `j`-th entry,
and it turns it into `fileOutcome j files[j]`. -/
theorem entryEvolution_enum (files : List ProjectFile)
    (hids : (files.map ProjectFile.id).Nodup) (j : Nat) (hj : j < files.length) :
    entryEvolution eff tgt autoSplit oracle files.enum (files[j])
      = fileOutcome eff tgt autoSplit oracle j (files[j]) := by
  have hlen : (files.take j).length = j := by
    rw [List.length_take]
    omega
  have hsplit : files.enum
      = (files.take j).enum
        ++ ((j, files[j]) :: List.enumFrom (j + 1) (files.drop (j + 1))) := by
    conv_lhs => rw [← List.take_append_drop j files, List.enum_append]
    rw [hlen, List.drop_eq_getElem_cons hj, List.enumFrom_cons]
  have hpre : ∀ pr ∈ (files.take j).enum, pr.2.id ≠ (files[j]).id := by
    intro pr hpr
    obtain ⟨k, hk⟩ := List.mem_iff_getElem?.mp hpr
    rw [List.getElem?_enum] at hk
    cases htk : (files.take j)[k]? with
    | none => rw [htk] at hk; simp at hk
    | some x =>
      rw [htk] at hk
      simp only [Option.map_some'] at hk
      have hk_lt : k < (files.take j).length := by
        by_contra hcon
        rw [List.getElem?_eq_none (by omega)] at htk
        exact Option.noConfusion htk
      have hkj : k < j := by omega
      have hkf : k < files.length := by omega
      have hx : (files.take j)[k]? = files[k]? := List.getElem?_take_of_lt hkj
      rw [hx, List.getElem?_eq_getElem hkf] at htk
      have hx2 : x = files[k] := by
        injection htk with h2
        exact h2.symm
      injection hk with h3
      rw [← h3]
      show x.id ≠ (files[j]).id
      rw [hx2]
      exact nodup_ids_ne files hids k j hkf hj (by omega)
  have hsuf : ∀ pr ∈ List.enumFrom (j + 1) (files.drop (j + 1)),
      pr.2.id ≠ (files[j]).id := by
    intro pr hpr
    obtain ⟨k, hk⟩ := List.mem_iff_getElem?.mp hpr
    rw [List.getElem?_enumFrom] at hk
    cases htk : (files.drop (j + 1))[k]? with
    | none => rw [htk] at hk; simp at hk
    | some x =>
      rw [htk] at hk
      simp only [Option.map_some'] at hk
      have hk_lt : k < (files.drop (j + 1)).length := by
        by_contra hcon
        rw [List.getElem?_eq_none (by omega)] at htk
        exact Option.noConfusion htk
      have hdlen : (files.drop (j + 1)).length = files.length - (j + 1) :=
        List.length_drop _ _
      have hkf : j + 1 + k < files.length := by omega
      have hx : (files.drop (j + 1))[k]? = files[j + 1 + k]? :=
        List.getElem?_drop files (j + 1) k
      rw [hx, List.getElem?_eq_getElem hkf] at htk
      have hx2 : x = files[j + 1 + k] := by
        injection htk with h2
        exact h2.symm
      injection hk with h3
      rw [← h3]
      show x.id ≠ (files[j]).id
      rw [hx2]
      exact nodup_ids_ne files hids (j + 1 + k) j hkf hj (by omega)
  rw [hsplit]
  show entryEvolution eff tgt autoSplit oracle _ _ = _
  unfold entryEvolution
  rw [List.foldl_append, List.foldl_cons]
  have h1 : List.foldl (fun x pr => stepEntry eff tgt autoSplit oracle pr x)
      (files[j]) (files.take j).enum = files[j] :=
    entryEvolution_of_ne eff tgt autoSplit oracle _ _ hpre
  rw [h1, stepEntry_self]
  exact entryEvolution_of_ne eff tgt autoSplit oracle _ _
    (fun pr hpr => by
      rw [fileOutcome_id]
      exact hsuf pr hpr)

end Characterization

/-! ### Branch lemmas for the per-iteration functions -/

theorem perFileZip_pass (eff : String) (tgt : Language) (autoSplit : Bool)
    (oracle : Nat → GatewayOutcome) (pr : Nat × ProjectFile)
    (h : isPassThrough pr.2 = true) :
    perFileZip eff tgt autoSplit oracle pr = [(pr.2.path, passZipContent pr.2)] := by
  unfold perFileZip
  rw [if_pos h]

theorem perFileZip_error (eff : String) (tgt : Language) (autoSplit : Bool)
    (oracle : Nat → GatewayOutcome) (pr : Nat × ProjectFile) (msg : String)
    (h : isPassThrough pr.2 = false)
    (hc : convertFileWithSplitting pr.2 eff tgt autoSplit (oracle pr.1)
      = Except.error msg) :
    perFileZip eff tgt autoSplit oracle pr = [(pr.2.path, pr.2.content)] := by
  unfold perFileZip
  rw [if_neg (by simp [h]), hc]

theorem perFileZip_ok (eff : String) (tgt : Language) (autoSplit : Bool)
    (oracle : Nat → GatewayOutcome) (pr : Nat × ProjectFile) (rs : List OutputFile)
    (h : isPassThrough pr.2 = false)
    (hc : convertFileWithSplitting pr.2 eff tgt autoSplit (oracle pr.1) = Except.ok rs) :
    perFileZip eff tgt autoSplit oracle pr = rs.map (fun rf => (rf.path, rf.content)) := by
  unfold perFileZip
  rw [if_neg (by simp [h]), hc]

theorem fileOutcome_pass (eff : String) (tgt : Language) (autoSplit : Bool)
    (oracle : Nat → GatewayOutcome) (i : Nat) (file : ProjectFile)
    (h : isPassThrough file = true) :
    fileOutcome eff tgt autoSplit oracle i file = file := by
  unfold fileOutcome
  rw [if_pos h]

theorem fileOutcome_ok (eff : String) (tgt : Language) (autoSplit : Bool)
    (oracle : Nat → GatewayOutcome) (i : Nat) (file : ProjectFile) (rs : List OutputFile)
    (h : isPassThrough file = false)
    (hc : convertFileWithSplitting file eff tgt autoSplit (oracle i) = Except.ok rs) :
    fileOutcome eff tgt autoSplit oracle i file
      = { file with status := FileStatus.completed, outputFiles := rs } := by
  unfold fileOutcome
  rw [if_neg (by simp [h]), hc]

theorem fileOutcome_error (eff : String) (tgt : Language) (autoSplit : Bool)
    (oracle : Nat → GatewayOutcome) (i : Nat) (file : ProjectFile) (msg : String)
    (h : isPassThrough file = false)
    (hc : convertFileWithSplitting file eff tgt autoSplit (oracle i)
      = Except.error msg) :
    fileOutcome eff tgt autoSplit oracle i file
      = { file with status := FileStatus.error, error := some msg } := by
  unfold fileOutcome
  rw [if_neg (by simp [h]), hc]

/-! ### Field-level characterizations of `runConversion` -/

theorem runConversion_filesState_getElem? (files : List ProjectFile)
    (prev : List ConversionHistoryItem) (analysis : Option ProjectAnalysis)
    (sel : SourceSel) (tgt : Language) (autoSplit : Bool)
    (oracle : Nat → GatewayOutcome) (ts : String)
    (hids : (files.map ProjectFile.id).Nodup) (j : Nat) :
    (runConversion files prev analysis sel tgt autoSplit oracle ts).filesState[j]?
      = (files[j]?).map
          (fileOutcome (effectiveSourceLang sel analysis) tgt autoSplit oracle j) := by
  have h0 : (runConversion files prev analysis sel tgt autoSplit oracle ts).filesState
      = ((files.enum).foldl
          (convStep (effectiveSourceLang sel analysis) tgt autoSplit files.length oracle ts)
          (initState files)).filesState := rfl
  have hfs : (runConversion files prev analysis sel tgt autoSplit oracle ts).filesState
      = files.map (entryEvolution (effectiveSourceLang sel analysis) tgt autoSplit oracle
          files.enum) := by
    rw [h0, foldl_convStep_filesState, foldl_stepFiles_eq_map]
    simp [initState]
  rw [hfs, List.getElem?_map]
  by_cases hj : j < files.length
  · rw [List.getElem?_eq_getElem hj]
    simp only [Option.map_some']
    congr 1
    exact entryEvolution_enum _ _ _ _ files hids j hj
  · rw [List.getElem?_eq_none (by omega)]
    rfl

theorem runConversion_filesState_length (files : List ProjectFile)
    (prev : List ConversionHistoryItem) (analysis : Option ProjectAnalysis)
    (sel : SourceSel) (tgt : Language) (autoSplit : Bool)
    (oracle : Nat → GatewayOutcome) (ts : String) :
    (runConversion files prev analysis sel tgt autoSplit oracle ts).filesState.length
      = files.length := by
  have h0 : (runConversion files prev analysis sel tgt autoSplit oracle ts).filesState
      = ((files.enum).foldl
          (convStep (effectiveSourceLang sel analysis) tgt autoSplit files.length oracle ts)
          (initState files)).filesState := rfl
  rw [h0, foldl_convStep_filesState, foldl_stepFiles_eq_map]
  simp [initState]

/-- `getD` form of the pointwise files-state characterization. -/
theorem runConversion_filesState_getD (files : List ProjectFile)
    (prev : List ConversionHistoryItem) (analysis : Option ProjectAnalysis)
    (sel : SourceSel) (tgt : Language) (autoSplit : Bool)
    (oracle : Nat → GatewayOutcome) (ts : String)
    (hids : (files.map ProjectFile.id).Nodup) (j : Nat) (hj : j < files.length) :
    (runConversion files prev analysis sel tgt autoSplit oracle ts).filesState.getD j default
      = fileOutcome (effectiveSourceLang sel analysis) tgt autoSplit oracle j
          (files.getD j default) := by
  rw [List.getD_eq_getElem?_getD,
    runConversion_filesState_getElem? files prev analysis sel tgt autoSplit oracle ts hids j,
    List.getD_eq_getElem?_getD, List.getElem?_eq_getElem hj]
  rfl

theorem runConversion_zip_mem (files : List ProjectFile)
    (prev : List ConversionHistoryItem) (analysis : Option ProjectAnalysis)
    (sel : SourceSel) (tgt : Language) (autoSplit : Bool)
    (oracle : Nat → GatewayOutcome) (ts : String) (e : String × String)
    (he : e ∈ files.enum.flatMap
      (perFileZip (effectiveSourceLang sel analysis) tgt autoSplit oracle)) :
    e ∈ (runConversion files prev analysis sel tgt autoSplit oracle ts).zipEntries := by
  have h0 : (runConversion files prev analysis sel tgt autoSplit oracle ts).zipEntries
      = ((files.enum).foldl
          (convStep (effectiveSourceLang sel analysis) tgt autoSplit files.length oracle ts)
          (initState files)).zipEntries
        ++ [("conversion_report.json",
             reportJsonContent
               (runConversion files prev analysis sel tgt autoSplit oracle ts).report)] := rfl
  rw [h0, foldl_convStep_zipEntries]
  simp only [initState, List.nil_append, List.mem_append]
  exact Or.inl he

theorem runConversion_zip_report (files : List ProjectFile)
    (prev : List ConversionHistoryItem) (analysis : Option ProjectAnalysis)
    (sel : SourceSel) (tgt : Language) (autoSplit : Bool)
    (oracle : Nat → GatewayOutcome) (ts : String) :
    "conversion_report.json"
      ∈ (runConversion files prev analysis sel tgt autoSplit oracle ts).zipEntries.map
          Prod.fst := by
  have h0 : (runConversion files prev analysis sel tgt autoSplit oracle ts).zipEntries
      = ((files.enum).foldl
          (convStep (effectiveSourceLang sel analysis) tgt autoSplit files.length oracle ts)
          (initState files)).zipEntries
        ++ [("conversion_report.json",
             reportJsonContent
               (runConversion files prev analysis sel tgt autoSplit oracle ts).report)] := rfl
  rw [h0]
  simp

theorem runConversion_progressTrace (files : List ProjectFile)
    (prev : List ConversionHistoryItem) (analysis : Option ProjectAnalysis)
    (sel : SourceSel) (tgt : Language) (autoSplit : Bool)
    (oracle : Nat → GatewayOutcome) (ts : String) :
    (runConversion files prev analysis sel tgt autoSplit oracle ts).progressTrace
      = 0 :: (List.range files.length).map (fun j => jsRound100 (j + 1) files.length) := by
  have h0 : (runConversion files prev analysis sel tgt autoSplit oracle ts).progressTrace
      = ((files.enum).foldl
          (convStep (effectiveSourceLang sel analysis) tgt autoSplit files.length oracle ts)
          (initState files)).progressTrace := rfl
  rw [h0, foldl_convStep_progressTrace]
  have h1 : files.enum.map (fun pr => jsRound100 (pr.1 + 1) files.length)
      = (files.enum.map Prod.fst).map (fun j => jsRound100 (j + 1) files.length) := by
    rw [List.map_map]
    rfl
  rw [h1, List.enum_map_fst]
  rfl

theorem runConversion_splitsFound (files : List ProjectFile)
    (prev : List ConversionHistoryItem) (analysis : Option ProjectAnalysis)
    (sel : SourceSel) (tgt : Language) (autoSplit : Bool)
    (oracle : Nat → GatewayOutcome) (ts : String) :
    (runConversion files prev analysis sel tgt autoSplit oracle ts).report.splitsFound
      = (files.enum.map
          (splitContrib (effectiveSourceLang sel analysis) tgt autoSplit oracle)).sum := by
  have h0 : (runConversion files prev analysis sel tgt autoSplit oracle ts).report.splitsFound
      = ((files.enum).foldl
          (convStep (effectiveSourceLang sel analysis) tgt autoSplit files.length oracle ts)
          (initState files)).splits := rfl
  rw [h0, foldl_convStep_splits]
  simp [initState]

theorem runConversion_convertedFiles (files : List ProjectFile)
    (prev : List ConversionHistoryItem) (analysis : Option ProjectAnalysis)
    (sel : SourceSel) (tgt : Language) (autoSplit : Bool)
    (oracle : Nat → GatewayOutcome) (ts : String) :
    (runConversion files prev analysis sel tgt autoSplit oracle ts).report.convertedFiles
      = (files.enum.map
          (convContrib (effectiveSourceLang sel analysis) tgt autoSplit oracle)).sum := by
  have h0 : (runConversion files prev analysis sel tgt autoSplit oracle ts).report.convertedFiles
      = ((files.enum).foldl
          (convStep (effectiveSourceLang sel analysis) tgt autoSplit files.length oracle ts)
          (initState files)).convertedCount := rfl
  rw [h0, foldl_convStep_convertedCount]
  simp [initState]

theorem runConversion_manualReview (files : List ProjectFile)
    (prev : List ConversionHistoryItem) (analysis : Option ProjectAnalysis)
    (sel : SourceSel) (tgt : Language) (autoSplit : Bool)
    (oracle : Nat → GatewayOutcome) (ts : String) :
    (runConversion files prev analysis sel tgt autoSplit oracle ts).report.manualReviewRequired
      = files.enum.flatMap
          (errNames (effectiveSourceLang sel analysis) tgt autoSplit oracle) := by
  have h0 : (runConversion files prev analysis sel tgt autoSplit oracle
        ts).report.manualReviewRequired
      = ((files.enum).foldl
          (convStep (effectiveSourceLang sel analysis) tgt autoSplit files.length oracle ts)
          (initState files)).errors := rfl
  rw [h0, foldl_convStep_errors]
  simp [initState]

theorem runConversion_newHistoryItems (files : List ProjectFile)
    (prev : List ConversionHistoryItem) (analysis : Option ProjectAnalysis)
    (sel : SourceSel) (tgt : Language) (autoSplit : Bool)
    (oracle : Nat → GatewayOutcome) (ts : String) :
    (runConversion files prev analysis sel tgt autoSplit oracle ts).newHistoryItems
      = files.enum.flatMap
          (perFileHistory (effectiveSourceLang sel analysis) tgt autoSplit oracle ts) := by
  have h0 : (runConversion files prev analysis sel tgt autoSplit oracle ts).newHistoryItems
      = ((files.enum).foldl
          (convStep (effectiveSourceLang sel analysis) tgt autoSplit files.length oracle ts)
          (initState files)).newHistory := rfl
  rw [h0, foldl_convStep_newHistory]
  simp [initState]

theorem runConversion_history_eq (files : List ProjectFile)
    (prev : List ConversionHistoryItem) (analysis : Option ProjectAnalysis)
    (sel : SourceSel) (tgt : Language) (autoSplit : Bool)
    (oracle : Nat → GatewayOutcome) (ts : String) :
    (runConversion files prev analysis sel tgt autoSplit oracle ts).history
      = ((runConversion files prev analysis sel tgt autoSplit oracle ts).newHistoryItems
          ++ prev).take 50 := rfl

/-! ### Helper facts about the conversion error -/

/-- Every `Except.error` produced by `convertFileWithSplitting` carries the
fixed catch-block message. -/
theorem convertError_eq (file : ProjectFile) (sl : String) (tgt : Language)
    (autoSplit : Bool) (o : GatewayOutcome) (msg : String)
    (h : convertFileWithSplitting file sl tgt autoSplit o = Except.error msg) :
    msg = convertErrorMessage file := by
  unfold convertFileWithSplitting at h
  cases o with
  | throws m =>
    injection h with h2
    exact h2.symm
  | replies t =>
    dsimp only at h
    cases hp : parseJson (cleanJsonResponse (rawText t)) with
    | none =>
      rw [hp] at h
      injection h with h2
      exact h2.symm
    | some j =>
      rw [hp] at h
      cases j with
      | null =>
        injection h with h2
        exact h2.symm
      | bool b => exact Except.noConfusion h
      | num s => exact Except.noConfusion h
      | str s => exact Except.noConfusion h
      | arr xs => exact Except.noConfusion h
      | obj fs => exact Except.noConfusion h

/-- The catch-block message is never empty. -/
theorem convertErrorMessage_ne_empty (file : ProjectFile) :
    convertErrorMessage file ≠ "" := by
  intro h
  have h2 := congrArg String.length h
  unfold convertErrorMessage at h2
  rw [String.length_append, String.length_append] at h2
  have ha : ("Failed to convert ").length = 18 := by decide
  have hb : (". The AI model may be overloaded or the file contains unsupported constructs.").length = 77 := by decide
  have hc : ("" : String).length = 0 := by decide
  omega

/-! ### Concrete inputs used by counterexamples and witnesses -/

/-- A single plain source file as loaded by the upload handler. -/
def exFile : ProjectFile :=
  { id := "file-0", name := "a.py", path := "a.py", content := "print(1)",
    outputFiles := [], status := FileStatus.idle }

/-- The `j`-th of a family of plain source files. -/
def mkConvFile (j : Nat) : ProjectFile :=
  { id := "file-" ++ toString j, name := "a" ++ toString j ++ ".py",
    path := "a" ++ toString j ++ ".py", content := "print(" ++ toString j ++ ")",
    outputFiles := [], status := FileStatus.idle }

/-- `n` plain source files with distinct ids. -/
def convFiles (n : Nat) : List ProjectFile := (List.range n).map mkConvFile

/-- The `j`-th of a family of binary assets. -/
def mkAsset (j : Nat) : ProjectFile :=
  { id := "asset-" ++ toString j, name := "img" ++ toString j ++ ".png",
    path := "img" ++ toString j ++ ".png", content := "[Binary Content]",
    outputFiles := [], status := FileStatus.completed, isAsset := true }

/-- `n` binary assets with distinct ids. -/
def assetFiles (n : Nat) : List ProjectFile := (List.range n).map mkAsset

/-- A well-formed Gateway reply carrying two output files (a split). -/
def splitJson : String :=
  "\x7b\"files\":[\x7b\"name\":\"x\",\"path\":\"p1\",\"content\":\"c1\"\x7d,\x7b\"name\":\"y\",\"path\":\"p2\",\"content\":\"c2\"\x7d]\x7d"

/-- First run: the one file is split into two outputs. -/
def splitRunFirst : RunResult :=
  runConversion [mkConvFile 0] [] none (SourceSel.fixed Language.python) Language.java true
    (fun _ => GatewayOutcome.replies (some splitJson)) "t1"

/-- Second run over the resulting state: the same file now fails. -/
def splitRunSecond : RunResult :=
  runConversion splitRunFirst.filesState splitRunFirst.history none
    (SourceSel.fixed Language.python) Language.java true
    (fun _ => GatewayOutcome.throws "network error") "t2"

/-- A Gateway that fails the first call with a configuration-style message
and answers later calls normally. -/
def configErrorOracle : Nat → GatewayOutcome :=
  fun i =>
    if i = 0 then
      GatewayOutcome.throws
        "API Key niet gevonden. Zorg ervoor dat GEMINI_API_KEY in je .env.local staat."
    else GatewayOutcome.replies none

/-- An analysis whose primary language is not a recognized tag. -/
def csharpAnalysis : ProjectAnalysis :=
  { projectType := "Generic Codebase", primaryLanguage := "csharp" }

/-- An analysis whose primary language is the empty string (falsy). -/
def emptyLangAnalysis : ProjectAnalysis :=
  { projectType := "Generic Codebase", primaryLanguage := "" }

/-! ### The claims -/

/-- Claim C1, counterexample: the claim "every input file (asset, config,
converted, or errored) has at least one corresponding entry in the output
archive; no input file is silently dropped" is false.  For a run over one
plain source file whose Gateway reply has a missing `text` field, the
client defaults to `\x7b"files": []\x7d`, the conversion succeeds with zero
output files, the file is marked `completed` with empty `outputFiles`, and
the only archive entry is the report: the input file has no entry at any
path. -/
theorem C1_counterexample :
    ((runConversion [exFile] [] none (SourceSel.fixed Language.python) Language.java true
        (fun _ => GatewayOutcome.replies none) "t").zipEntries.map Prod.fst
      = ["conversion_report.json"]) ∧
    ((runConversion [exFile] [] none (SourceSel.fixed Language.python) Language.java true
        (fun _ => GatewayOutcome.replies none) "t").filesState.map ProjectFile.status
      = [FileStatus.completed]) ∧
    ((runConversion [exFile] [] none (SourceSel.fixed Language.python) Language.java true
        (fun _ => GatewayOutcome.replies none) "t").filesState.map ProjectFile.outputFiles
      = [[]]) := by
  decide

/-- Claim C1 (amended): after a batch run, every pass-through (asset or
config) file has an archive entry at its own path, every errored file has
an archive entry at its own path holding its original content, and every
successfully converted file has one archive entry per returned output
file; the report entry is always present.  (A file is dropped only in the
case the counterexample exhibits: a successful conversion returning zero
output files.) -/
theorem C1_theorem (files : List ProjectFile) (prev : List ConversionHistoryItem)
    (analysis : Option ProjectAnalysis) (sel : SourceSel) (tgt : Language)
    (autoSplit : Bool) (oracle : Nat → GatewayOutcome) (ts : String)
    (j : Nat) (hj : j < files.length) :
    (isPassThrough (files.getD j default) = true →
      ((files.getD j default).path, passZipContent (files.getD j default))
        ∈ (runConversion files prev analysis sel tgt autoSplit oracle ts).zipEntries) ∧
    (isPassThrough (files.getD j default) = false →
      (∀ msg, convertFileWithSplitting (files.getD j default)
          (effectiveSourceLang sel analysis) tgt autoSplit (oracle j) = Except.error msg →
        ((files.getD j default).path, (files.getD j default).content)
          ∈ (runConversion files prev analysis sel tgt autoSplit oracle ts).zipEntries) ∧
      (∀ rs, convertFileWithSplitting (files.getD j default)
          (effectiveSourceLang sel analysis) tgt autoSplit (oracle j) = Except.ok rs →
        ∀ rf ∈ rs, (rf.path, rf.content)
          ∈ (runConversion files prev analysis sel tgt autoSplit oracle ts).zipEntries)) ∧
    "conversion_report.json"
      ∈ ((runConversion files prev analysis sel tgt autoSplit oracle ts).zipEntries.map
          Prod.fst) := by
  have hmem : (j, files.getD j default) ∈ files.enum := by
    apply List.mem_iff_getElem?.mpr
    refine ⟨j, ?_⟩
    rw [List.getElem?_enum, List.getElem?_eq_getElem hj]
    rw [List.getD_eq_getElem?_getD, List.getElem?_eq_getElem hj]
    rfl
  refine ⟨?_, ?_, runConversion_zip_report files prev analysis sel tgt autoSplit oracle ts⟩
  · intro hpass
    apply runConversion_zip_mem
    apply List.mem_flatMap.mpr
    refine ⟨(j, files.getD j default), hmem, ?_⟩
    rw [perFileZip_pass _ _ _ _ _ hpass]
    exact List.mem_singleton.mpr rfl
  · intro hpass
    constructor
    · intro msg hmsg
      apply runConversion_zip_mem
      apply List.mem_flatMap.mpr
      refine ⟨(j, files.getD j default), hmem, ?_⟩
      rw [perFileZip_error _ _ _ _ _ _ hpass hmsg]
      exact List.mem_singleton.mpr rfl
    · intro rs hrs rf hrf
      apply runConversion_zip_mem
      apply List.mem_flatMap.mpr
      refine ⟨(j, files.getD j default), hmem, ?_⟩
      rw [perFileZip_ok _ _ _ _ _ _ hpass hrs]
      exact List.mem_map_of_mem _ hrf

/-- Witness for `C1_theorem`: a two-file run (one asset, one converted
file with a two-file split reply). -/
theorem C1_witness :
    (0 < [mkAsset 0, mkConvFile 1].length) ∧
    ((isPassThrough ([mkAsset 0, mkConvFile 1].getD 0 default) = true →
      (([mkAsset 0, mkConvFile 1].getD 0 default).path,
        passZipContent ([mkAsset 0, mkConvFile 1].getD 0 default))
        ∈ (runConversion [mkAsset 0, mkConvFile 1] [] none (SourceSel.fixed Language.python)
            Language.java true (fun _ => GatewayOutcome.replies (some splitJson))
            "t").zipEntries) ∧
    (isPassThrough ([mkAsset 0, mkConvFile 1].getD 0 default) = false →
      (∀ msg, convertFileWithSplitting ([mkAsset 0, mkConvFile 1].getD 0 default)
          (effectiveSourceLang (SourceSel.fixed Language.python) none) Language.java true
          ((fun _ => GatewayOutcome.replies (some splitJson)) 0) = Except.error msg →
        (([mkAsset 0, mkConvFile 1].getD 0 default).path,
          ([mkAsset 0, mkConvFile 1].getD 0 default).content)
          ∈ (runConversion [mkAsset 0, mkConvFile 1] [] none (SourceSel.fixed Language.python)
              Language.java true (fun _ => GatewayOutcome.replies (some splitJson))
              "t").zipEntries) ∧
      (∀ rs, convertFileWithSplitting ([mkAsset 0, mkConvFile 1].getD 0 default)
          (effectiveSourceLang (SourceSel.fixed Language.python) none) Language.java true
          ((fun _ => GatewayOutcome.replies (some splitJson)) 0) = Except.ok rs →
        ∀ rf ∈ rs, (rf.path, rf.content)
          ∈ (runConversion [mkAsset 0, mkConvFile 1] [] none (SourceSel.fixed Language.python)
              Language.java true (fun _ => GatewayOutcome.replies (some splitJson))
              "t").zipEntries)) ∧
    "conversion_report.json"
      ∈ ((runConversion [mkAsset 0, mkConvFile 1] [] none (SourceSel.fixed Language.python)
          Language.java true (fun _ => GatewayOutcome.replies (some splitJson))
          "t").zipEntries.map Prod.fst)) :=
  ⟨by decide,
   C1_theorem [mkAsset 0, mkConvFile 1] [] none (SourceSel.fixed Language.python)
     Language.java true (fun _ => GatewayOutcome.replies (some splitJson)) "t" 0 (by decide)⟩

/-- Claim C2 (confirmed): for every file whose conversion call throws, the
file's final status is `error`, its `error` field is a non-empty message,
and the archive receives an entry at the file's path holding its original
content (pass-through). -/
theorem C2_theorem (files : List ProjectFile) (prev : List ConversionHistoryItem)
    (analysis : Option ProjectAnalysis) (sel : SourceSel) (tgt : Language)
    (autoSplit : Bool) (oracle : Nat → GatewayOutcome) (ts : String)
    (hids : (files.map ProjectFile.id).Nodup)
    (j : Nat) (hj : j < files.length)
    (hpass : isPassThrough (files.getD j default) = false)
    (msg : String)
    (herr : convertFileWithSplitting (files.getD j default)
        (effectiveSourceLang sel analysis) tgt autoSplit (oracle j) = Except.error msg) :
    (((runConversion files prev analysis sel tgt autoSplit oracle ts).filesState.getD j
        default).status = FileStatus.error) ∧
    (((runConversion files prev analysis sel tgt autoSplit oracle ts).filesState.getD j
        default).error = some msg) ∧
    msg ≠ "" ∧
    (((files.getD j default).path, (files.getD j default).content)
      ∈ (runConversion files prev analysis sel tgt autoSplit oracle ts).zipEntries) := by
  have hfo := runConversion_filesState_getD files prev analysis sel tgt autoSplit oracle ts
    hids j hj
  have hout : fileOutcome (effectiveSourceLang sel analysis) tgt autoSplit oracle j
      (files.getD j default)
      = { files.getD j default with status := FileStatus.error, error := some msg } :=
    fileOutcome_error _ _ _ _ _ _ _ hpass herr
  have hmem : (j, files.getD j default) ∈ files.enum := by
    apply List.mem_iff_getElem?.mpr
    refine ⟨j, ?_⟩
    rw [List.getElem?_enum, List.getElem?_eq_getElem hj]
    rw [List.getD_eq_getElem?_getD, List.getElem?_eq_getElem hj]
    rfl
  refine ⟨?_, ?_, ?_, ?_⟩
  · rw [hfo, hout]
  · rw [hfo, hout]
  · rw [convertError_eq _ _ _ _ _ _ herr]
    exact convertErrorMessage_ne_empty _
  · apply runConversion_zip_mem
    apply List.mem_flatMap.mpr
    refine ⟨(j, files.getD j default), hmem, ?_⟩
    rw [perFileZip_error _ _ _ _ _ _ hpass herr]
    exact List.mem_singleton.mpr rfl

/-- Witness for `C2_theorem`: a one-file run whose Gateway call throws. -/
theorem C2_witness :
    (((convFiles 1).map ProjectFile.id).Nodup ∧ 0 < (convFiles 1).length ∧
      isPassThrough ((convFiles 1).getD 0 default) = false ∧
      convertFileWithSplitting ((convFiles 1).getD 0 default)
        (effectiveSourceLang (SourceSel.fixed Language.python) none) Language.java true
        ((fun _ => GatewayOutcome.throws "boom") 0)
        = Except.error (convertErrorMessage ((convFiles 1).getD 0 default))) ∧
    ((((runConversion (convFiles 1) [] none (SourceSel.fixed Language.python) Language.java
        true (fun _ => GatewayOutcome.throws "boom") "t").filesState.getD 0
        default).status = FileStatus.error) ∧
    (((runConversion (convFiles 1) [] none (SourceSel.fixed Language.python) Language.java
        true (fun _ => GatewayOutcome.throws "boom") "t").filesState.getD 0
        default).error = some (convertErrorMessage ((convFiles 1).getD 0 default))) ∧
    convertErrorMessage ((convFiles 1).getD 0 default) ≠ "" ∧
    ((((convFiles 1).getD 0 default).path, ((convFiles 1).getD 0 default).content)
      ∈ (runConversion (convFiles 1) [] none (SourceSel.fixed Language.python) Language.java
          true (fun _ => GatewayOutcome.throws "boom") "t").zipEntries)) :=
  ⟨⟨by decide, by decide, by decide, by decide⟩,
   C2_theorem (convFiles 1) [] none (SourceSel.fixed Language.python) Language.java true
     (fun _ => GatewayOutcome.throws "boom") "t" (by decide) 0 (by decide) (by decide)
     (convertErrorMessage ((convFiles 1).getD 0 default)) (by decide)⟩

/-- Claim C3, counterexample: the claim's exception — "when the failure
message indicates a configuration problem, the whole batch run aborts
early" — is false.  With two files where the first Gateway call throws a
missing-API-key configuration message, the run still continues: the second
file is processed to `completed`, the report counts it, and progress
reaches 100. -/
theorem C3_counterexample :
    ((runConversion (convFiles 2) [] none (SourceSel.fixed Language.python) Language.java true
        configErrorOracle "t").filesState.map ProjectFile.status
      = [FileStatus.error, FileStatus.completed]) ∧
    ((runConversion (convFiles 2) [] none (SourceSel.fixed Language.python) Language.java true
        configErrorOracle "t").report.convertedFiles = 1) ∧
    ((runConversion (convFiles 2) [] none (SourceSel.fixed Language.python) Language.java true
        configErrorOracle "t").progressTrace = [0, 50, 100]) := by
  decide

/-- Claim C3 (amended): every per-file conversion failure is caught at the
orchestrator boundary and becomes a file-level `error` status plus a
pass-through output, and the run always continues through every file —
unconditionally: there is no configuration-error short-circuit; the loop
performs one progress update per file regardless of failures, and every
non-pass-through file ends in `completed` or `error`. -/
theorem C3_theorem (files : List ProjectFile) (prev : List ConversionHistoryItem)
    (analysis : Option ProjectAnalysis) (sel : SourceSel) (tgt : Language)
    (autoSplit : Bool) (oracle : Nat → GatewayOutcome) (ts : String)
    (hids : (files.map ProjectFile.id).Nodup)
    (j : Nat) (hj : j < files.length)
    (hpass : isPassThrough (files.getD j default) = false) :
    ((((runConversion files prev analysis sel tgt autoSplit oracle ts).filesState.getD j
        default).status = FileStatus.completed) ∨
     (((runConversion files prev analysis sel tgt autoSplit oracle ts).filesState.getD j
        default).status = FileStatus.error)) ∧
    (runConversion files prev analysis sel tgt autoSplit oracle ts).progressTrace.length
      = files.length + 1 := by
  have hfo := runConversion_filesState_getD files prev analysis sel tgt autoSplit oracle ts
    hids j hj
  constructor
  · rw [hfo]
    cases hc : convertFileWithSplitting (files.getD j default)
        (effectiveSourceLang sel analysis) tgt autoSplit (oracle j) with
    | ok rs =>
      left
      rw [fileOutcome_ok _ _ _ _ _ _ _ hpass hc]
    | error m =>
      right
      rw [fileOutcome_error _ _ _ _ _ _ _ hpass hc]
  · rw [runConversion_progressTrace]
    simp

/-- Witness for `C3_theorem`: the two-file run with a first-call
configuration-style failure. -/
theorem C3_witness :
    (((convFiles 2).map ProjectFile.id).Nodup ∧ 1 < (convFiles 2).length ∧
      isPassThrough ((convFiles 2).getD 1 default) = false) ∧
    (((((runConversion (convFiles 2) [] none (SourceSel.fixed Language.python) Language.java
        true configErrorOracle "t").filesState.getD 1 default).status
        = FileStatus.completed) ∨
      ((((runConversion (convFiles 2) [] none (SourceSel.fixed Language.python) Language.java
        true configErrorOracle "t").filesState.getD 1 default).status
        = FileStatus.error))) ∧
    (runConversion (convFiles 2) [] none (SourceSel.fixed Language.python) Language.java true
        configErrorOracle "t").progressTrace.length = (convFiles 2).length + 1) :=
  ⟨⟨by decide, by decide, by decide⟩,
   C3_theorem (convFiles 2) [] none (SourceSel.fixed Language.python) Language.java true
     configErrorOracle "t" (by decide) 1 (by decide) (by decide)⟩

/-- Claim C4, counterexample: the claim "an empty or missing text field
never yields a successful result" is false.  A missing or empty
`response.text` is replaced by the default `\x7b"files": []\x7d`, which parses
successfully, so the call succeeds with an empty output list instead of
failing with the conversion error. -/
theorem C4_counterexample :
    (convertFileWithSplitting exFile "python" Language.java true
        (GatewayOutcome.replies none) = Except.ok []) ∧
    (convertFileWithSplitting exFile "python" Language.java true
        (GatewayOutcome.replies (some "")) = Except.ok []) := by
  decide

/-- Claim C4 (amended): if the Gateway call throws, or returns text whose
cleaned form fails JSON parsing, the call fails with the fixed
`ConversionFailed` message; but an empty or missing text field yields a
successful empty result — the client substitutes `\x7b"files": []\x7d` before
parsing, so such a call never fails. -/
theorem C4_theorem (file : ProjectFile) (sl : String) (tgt : Language)
    (autoSplit : Bool) :
    (∀ m, convertFileWithSplitting file sl tgt autoSplit (GatewayOutcome.throws m)
      = Except.error (convertErrorMessage file)) ∧
    (∀ t, t ≠ "" → parseJson (cleanJsonResponse t) = none →
      convertFileWithSplitting file sl tgt autoSplit (GatewayOutcome.replies (some t))
        = Except.error (convertErrorMessage file)) ∧
    (convertFileWithSplitting file sl tgt autoSplit (GatewayOutcome.replies none)
      = Except.ok []) ∧
    (convertFileWithSplitting file sl tgt autoSplit (GatewayOutcome.replies (some ""))
      = Except.ok []) := by
  refine ⟨fun m => rfl, ?_, rfl, rfl⟩
  intro t ht hp
  unfold convertFileWithSplitting rawText
  simp only [ht, if_false, hp]

/-- Witness for `C4_theorem`: unparseable Gateway text at a concrete
file. -/
theorem C4_witness :
    (("notjson" : String) ≠ "" ∧ parseJson (cleanJsonResponse "notjson") = none) ∧
    (convertFileWithSplitting exFile "python" Language.java true
        (GatewayOutcome.replies (some "notjson"))
      = Except.error (convertErrorMessage exFile)) :=
  ⟨⟨by decide, by rfl⟩,
   (C4_theorem exFile "python" Language.java true).2.1 "notjson" (by decide) (by rfl)⟩

/-- `jsRound100` is monotone in the processed-file count. -/
theorem jsRound100_mono (n : Nat) {k k2 : Nat} (h : k ≤ k2) :
    jsRound100 k n ≤ jsRound100 k2 n :=
  Nat.div_le_div_right (by omega)

/-- After the last of `n ≥ 1` files, the rounded progress is exactly 100. -/
theorem jsRound100_self (n : Nat) (h : 0 < n) : jsRound100 n n = 100 := by
  unfold jsRound100
  have h2 : 200 * n + n = n + 2 * n * 100 := by ring
  rw [h2, Nat.add_mul_div_left _ _ (by omega : 0 < 2 * n), Nat.div_eq_of_lt (by omega)]

/-- `getD` of a mapped range below the bound. -/
theorem getD_range_map (f : Nat → Nat) (n a : Nat) (h : a < n) :
    ((List.range n).map f).getD a 0 = f a := by
  rw [List.getD_eq_getElem?_getD, List.getElem?_map, List.getElem?_range h]
  rfl

/-- Claim C5, counterexample: the claim "progress equals 100 exactly when
the last file has been processed" is false.  With 200 files, the progress
value recorded after the 199th file (trace position 199, not the last) is
already `round(100*199/200) = round(99.5) = 100`.  (For this input the JS
double computation `(199/200)*100` is exactly `99.5`, so `Math.round`
agrees with the rational model.) -/
theorem C5_counterexample :
    ((runConversion (assetFiles 200) [] none (SourceSel.fixed Language.python) Language.java
        true (fun _ => GatewayOutcome.replies none) "t").progressTrace.getD 199 0 = 100) ∧
    ((runConversion (assetFiles 200) [] none (SourceSel.fixed Language.python) Language.java
        true (fun _ => GatewayOutcome.replies none) "t").progressTrace.length = 201) := by
  decide

/-- Claim C5 (amended): the progress trace starts at 0, records
`round(100*(i+1)/total)` after file `i` for every file, is monotonically
non-decreasing, and equals 100 after the last file; it may also already
equal 100 one file earlier when the file count is at least 200 (see the
counterexample). -/
theorem C5_theorem (files : List ProjectFile) (prev : List ConversionHistoryItem)
    (analysis : Option ProjectAnalysis) (sel : SourceSel) (tgt : Language)
    (autoSplit : Bool) (oracle : Nat → GatewayOutcome) (ts : String)
    (hne : files ≠ []) :
    ((runConversion files prev analysis sel tgt autoSplit oracle ts).progressTrace
      = 0 :: (List.range files.length).map (fun j => jsRound100 (j + 1) files.length)) ∧
    (∀ a b, a ≤ b →
      b < (runConversion files prev analysis sel tgt autoSplit oracle ts).progressTrace.length →
      (runConversion files prev analysis sel tgt autoSplit oracle ts).progressTrace.getD a 0
        ≤ (runConversion files prev analysis sel tgt autoSplit oracle ts).progressTrace.getD
            b 0) ∧
    ((runConversion files prev analysis sel tgt autoSplit oracle ts).progressTrace.getD
        files.length 0 = 100) := by
  have hchar := runConversion_progressTrace files prev analysis sel tgt autoSplit oracle ts
  have hpos : 0 < files.length := List.length_pos.mpr hne
  refine ⟨hchar, ?_, ?_⟩
  · intro a b hab hb
    rw [hchar] at hb ⊢
    simp only [List.length_cons, List.length_map, List.length_range] at hb
    cases a with
    | zero => exact Nat.zero_le _
    | succ a =>
      cases b with
      | zero => omega
      | succ b =>
        have hbn : b < files.length := by omega
        have han : a < files.length := by omega
        show ((List.range files.length).map
            (fun j => jsRound100 (j + 1) files.length)).getD a 0
          ≤ ((List.range files.length).map
            (fun j => jsRound100 (j + 1) files.length)).getD b 0
        rw [getD_range_map _ _ _ han, getD_range_map _ _ _ hbn]
        exact jsRound100_mono files.length (by omega)
  · rw [hchar]
    obtain ⟨m, hm⟩ : ∃ m, files.length = m + 1 := ⟨files.length - 1, by omega⟩
    rw [hm]
    show ((List.range (m + 1)).map (fun j => jsRound100 (j + 1) (m + 1))).getD m 0 = 100
    rw [getD_range_map _ _ _ (by omega)]
    exact jsRound100_self (m + 1) (by omega)

/-- Witness for `C5_theorem`: a three-file run. -/
theorem C5_witness :
    (convFiles 3 ≠ []) ∧
    (((runConversion (convFiles 3) [] none (SourceSel.fixed Language.python) Language.java
        true (fun _ => GatewayOutcome.replies none) "t").progressTrace
      = 0 :: (List.range (convFiles 3).length).map
          (fun j => jsRound100 (j + 1) (convFiles 3).length)) ∧
    (∀ a b, a ≤ b →
      b < (runConversion (convFiles 3) [] none (SourceSel.fixed Language.python) Language.java
        true (fun _ => GatewayOutcome.replies none) "t").progressTrace.length →
      (runConversion (convFiles 3) [] none (SourceSel.fixed Language.python) Language.java
        true (fun _ => GatewayOutcome.replies none) "t").progressTrace.getD a 0
        ≤ (runConversion (convFiles 3) [] none (SourceSel.fixed Language.python) Language.java
        true (fun _ => GatewayOutcome.replies none) "t").progressTrace.getD b 0) ∧
    ((runConversion (convFiles 3) [] none (SourceSel.fixed Language.python) Language.java
        true (fun _ => GatewayOutcome.replies none) "t").progressTrace.getD
        (convFiles 3).length 0 = 100)) :=
  ⟨by decide,
   C5_theorem (convFiles 3) [] none (SourceSel.fixed Language.python) Language.java true
     (fun _ => GatewayOutcome.replies none) "t" (by decide)⟩


/-- A prior-run history item (used to exercise history eviction). -/
def mkHistItem (j : Nat) : ConversionHistoryItem :=
  { id := "hist-old-" ++ toString j, fileId := "file-" ++ toString j,
    fileName := "old" ++ toString j ++ ".py", filePath := "old" ++ toString j ++ ".py",
    timestamp := "t0", sourceLang := "python", targetLang := "java",
    originalContent := "", outputFiles := [] }

/-- Sixty prior history items, newest first (as the source keeps them). -/
def prevHistory60 : List ConversionHistoryItem := (List.range 60).map mkHistItem

/-- Claim C6, counterexample: the claim "when the cap is exceeded the
oldest entries are evicted first" is false.  A single run converting 51
files prepends the batch in processing order and then takes the first 50,
so the entry for the last-processed (newest) file `a50.py` is evicted
while the older entries `a0.py`..`a49.py` are kept. -/
theorem C6_counterexample :
    ((runConversion (convFiles 51) [] none (SourceSel.fixed Language.python) Language.java
        true (fun _ => GatewayOutcome.replies none) "t").history.length = 50) ∧
    (((runConversion (convFiles 51) [] none (SourceSel.fixed Language.python) Language.java
        true (fun _ => GatewayOutcome.replies none) "t").history.map
        (fun h => h.fileName)).contains "a50.py" = false) ∧
    (((runConversion (convFiles 51) [] none (SourceSel.fixed Language.python) Language.java
        true (fun _ => GatewayOutcome.replies none) "t").history.map
        (fun h => h.fileName)).contains "a0.py" = true) := by
  decide

/-- Claim C6 (amended): the history length never exceeds the fixed cap of
50, and — provided a single run contributes at most 50 new entries — the
kept list is the whole new batch followed by the newest prefix of the
previous history, so the evicted entries are the oldest (the tail of the
previous history).  When one run contributes more than 50 entries, the
excess newest entries of that run are dropped instead (see the
counterexample). -/
theorem C6_theorem (files : List ProjectFile) (prev : List ConversionHistoryItem)
    (analysis : Option ProjectAnalysis) (sel : SourceSel) (tgt : Language)
    (autoSplit : Bool) (oracle : Nat → GatewayOutcome) (ts : String) :
    ((runConversion files prev analysis sel tgt autoSplit oracle ts).history.length ≤ 50) ∧
    ((runConversion files prev analysis sel tgt autoSplit oracle ts).newHistoryItems.length
        ≤ 50 →
      (runConversion files prev analysis sel tgt autoSplit oracle ts).history
        = (runConversion files prev analysis sel tgt autoSplit oracle ts).newHistoryItems
          ++ prev.take
              (50 - (runConversion files prev analysis sel tgt autoSplit oracle
                  ts).newHistoryItems.length)) := by
  constructor
  · rw [runConversion_history_eq, List.length_take]
    omega
  · intro hle
    rw [runConversion_history_eq, List.take_append_eq_append_take,
      List.take_of_length_le hle]

/-- Witness for `C6_theorem`: one new entry on top of sixty old ones; the
ten oldest are evicted. -/
theorem C6_witness :
    ((runConversion (convFiles 1) prevHistory60 none (SourceSel.fixed Language.python)
        Language.java true (fun _ => GatewayOutcome.replies none)
        "t").newHistoryItems.length ≤ 50) ∧
    ((runConversion (convFiles 1) prevHistory60 none (SourceSel.fixed Language.python)
        Language.java true (fun _ => GatewayOutcome.replies none) "t").history.length ≤ 50) ∧
    ((runConversion (convFiles 1) prevHistory60 none (SourceSel.fixed Language.python)
        Language.java true (fun _ => GatewayOutcome.replies none) "t").history
      = (runConversion (convFiles 1) prevHistory60 none (SourceSel.fixed Language.python)
          Language.java true (fun _ => GatewayOutcome.replies none) "t").newHistoryItems
        ++ prevHistory60.take
            (50 - (runConversion (convFiles 1) prevHistory60 none
                (SourceSel.fixed Language.python) Language.java true
                (fun _ => GatewayOutcome.replies none) "t").newHistoryItems.length)) :=
  ⟨by decide,
   (C6_theorem (convFiles 1) prevHistory60 none (SourceSel.fixed Language.python)
     Language.java true (fun _ => GatewayOutcome.replies none) "t").1,
   (C6_theorem (convFiles 1) prevHistory60 none (SourceSel.fixed Language.python)
     Language.java true (fun _ => GatewayOutcome.replies none) "t").2 (by decide)⟩

/-- Sum of per-element indicators equals `countP`. -/
theorem sum_map_eq_countP {α : Type} (l : List α) (g : α → Nat) (q : α → Bool)
    (h : ∀ x ∈ l, g x = if q x then 1 else 0) :
    (l.map g).sum = l.countP q := by
  induction l with
  | nil => rfl
  | cons a l ih =>
    rw [List.map_cons, List.sum_cons, List.countP_cons, h a (List.mem_cons_self a l),
      ih (fun x hx => h x (List.mem_cons_of_mem a hx))]
    by_cases hq : q a = true
    · simp only [hq, if_true]
      omega
    · simp only [hq, if_false]
      omega

/-- `splitContrib` is the indicator of the processed entry ending with
more than one output file, whenever the entry starts with at most one. -/
theorem splitContrib_eq_indicator (eff : String) (tgt : Language) (autoSplit : Bool)
    (oracle : Nat → GatewayOutcome) (pr : Nat × ProjectFile)
    (hle : pr.2.outputFiles.length ≤ 1) :
    splitContrib eff tgt autoSplit oracle pr
      = if decide (1 < (fileOutcome eff tgt autoSplit oracle pr.1 pr.2).outputFiles.length)
          then 1 else 0 := by
  unfold splitContrib
  cases hp : isPassThrough pr.2 with
  | true =>
    rw [fileOutcome_pass _ _ _ _ _ _ hp]
    have hn : ¬(1 < pr.2.outputFiles.length) := by omega
    simp [hn]
  | false =>
    cases hc : convertFileWithSplitting pr.2 eff tgt autoSplit (oracle pr.1) with
    | ok rs =>
      rw [fileOutcome_ok _ _ _ _ _ _ _ hp hc]
      by_cases h1 : rs.length > 1 <;> simp [h1]
    | error m =>
      rw [fileOutcome_error _ _ _ _ _ _ _ hp hc]
      have hn : ¬(1 < pr.2.outputFiles.length) := by omega
      simp [hn]

/-- Full-list form of the files-state characterization. -/
theorem runConversion_filesState_eq_map (files : List ProjectFile)
    (prev : List ConversionHistoryItem) (analysis : Option ProjectAnalysis)
    (sel : SourceSel) (tgt : Language) (autoSplit : Bool)
    (oracle : Nat → GatewayOutcome) (ts : String)
    (hids : (files.map ProjectFile.id).Nodup) :
    (runConversion files prev analysis sel tgt autoSplit oracle ts).filesState
      = files.enum.map
          (fun pr => fileOutcome (effectiveSourceLang sel analysis) tgt autoSplit oracle
            pr.1 pr.2) := by
  apply List.ext_getElem?
  intro i
  rw [runConversion_filesState_getElem? files prev analysis sel tgt autoSplit oracle ts
    hids i, List.getElem?_map, List.getElem?_enum]
  cases files[i]? <;> rfl

/-- Claim C7, counterexample: the claim "outputFiles.length > 1 iff the
file is counted in splitsFound" is false across reruns.  After a first run
that splits the single file into two outputs, a second run in which its
conversion throws leaves the stale two-element `outputFiles` on the
`error`-status file while the second run's report counts zero splits. -/
theorem C7_counterexample :
    (splitRunSecond.report.splitsFound = 0) ∧
    (splitRunSecond.filesState.map (fun f => f.outputFiles.length) = [2]) ∧
    (splitRunSecond.filesState.map ProjectFile.status = [FileStatus.error]) := by
  decide

/-- Claim C7 (amended): provided every file enters the run with at most
one recorded output (as after a fresh upload), a file ends the run with
`outputFiles.length > 1` exactly when its iteration contributed to the
report's `splitsFound` count, and `splitsFound` equals the number of files
whose final `outputFiles` has more than one element.  (Reruns violate the
original claim because an errored file keeps its stale `outputFiles` — see
the counterexample.) -/
theorem C7_theorem (files : List ProjectFile) (prev : List ConversionHistoryItem)
    (analysis : Option ProjectAnalysis) (sel : SourceSel) (tgt : Language)
    (autoSplit : Bool) (oracle : Nat → GatewayOutcome) (ts : String)
    (hids : (files.map ProjectFile.id).Nodup)
    (hinit : ∀ f ∈ files, f.outputFiles.length ≤ 1) :
    ((runConversion files prev analysis sel tgt autoSplit oracle ts).report.splitsFound
      = (runConversion files prev analysis sel tgt autoSplit oracle ts).filesState.countP
          (fun f => decide (1 < f.outputFiles.length))) ∧
    (∀ j, j < files.length →
      (1 < ((runConversion files prev analysis sel tgt autoSplit oracle
          ts).filesState.getD j default).outputFiles.length ↔
        splitContrib (effectiveSourceLang sel analysis) tgt autoSplit oracle
          (j, files.getD j default) = 1)) := by
  constructor
  · rw [runConversion_splitsFound,
      runConversion_filesState_eq_map files prev analysis sel tgt autoSplit oracle ts hids,
      List.countP_map]
    apply sum_map_eq_countP
    intro pr hpr
    have hx : pr.2 ∈ files := by
      obtain ⟨k, hk⟩ := List.mem_iff_getElem?.mp hpr
      rw [List.getElem?_enum] at hk
      cases hfk : files[k]? with
      | none => rw [hfk] at hk; exact Option.noConfusion hk
      | some x =>
        rw [hfk] at hk
        simp only [Option.map_some'] at hk
        injection hk with h3
        rw [← h3]
        exact List.getElem?_mem hfk
    exact splitContrib_eq_indicator _ _ _ _ pr (hinit pr.2 hx)
  · intro j hj
    rw [runConversion_filesState_getD files prev analysis sel tgt autoSplit oracle ts
      hids j hj]
    have hx : files.getD j default ∈ files := by
      rw [List.getD_eq_getElem?_getD, List.getElem?_eq_getElem hj]
      exact List.getElem_mem hj
    have hind := splitContrib_eq_indicator (effectiveSourceLang sel analysis) tgt autoSplit
      oracle (j, files.getD j default) (hinit _ hx)
    rw [hind]
    by_cases hgt : 1 < (fileOutcome (effectiveSourceLang sel analysis) tgt autoSplit oracle
        j (files.getD j default)).outputFiles.length <;> simp [hgt]

/-- Witness for `C7_theorem`: a fresh one-file run whose reply is a
two-file split. -/
theorem C7_witness :
    (((convFiles 1).map ProjectFile.id).Nodup ∧
      (∀ f ∈ convFiles 1, f.outputFiles.length ≤ 1)) ∧
    (((runConversion (convFiles 1) [] none (SourceSel.fixed Language.python) Language.java
        true (fun _ => GatewayOutcome.replies (some splitJson)) "t").report.splitsFound
      = (runConversion (convFiles 1) [] none (SourceSel.fixed Language.python) Language.java
          true (fun _ => GatewayOutcome.replies (some splitJson)) "t").filesState.countP
          (fun f => decide (1 < f.outputFiles.length))) ∧
    (∀ j, j < (convFiles 1).length →
      (1 < ((runConversion (convFiles 1) [] none (SourceSel.fixed Language.python)
          Language.java true (fun _ => GatewayOutcome.replies (some splitJson))
          "t").filesState.getD j default).outputFiles.length ↔
        splitContrib (effectiveSourceLang (SourceSel.fixed Language.python) none)
          Language.java true (fun _ => GatewayOutcome.replies (some splitJson))
          (j, (convFiles 1).getD j default) = 1))) :=
  ⟨⟨by decide, by decide⟩,
   C7_theorem (convFiles 1) [] none (SourceSel.fixed Language.python) Language.java true
     (fun _ => GatewayOutcome.replies (some splitJson)) "t" (by decide) (by decide)⟩

/-- Claim C8, counterexample: the claim "the orchestrator resolves to a
fixed fallback language when the analysis value is not a recognized
language tag" is false.  With `primaryLanguage = "csharp"` — a non-empty
string that is not a recognized tag — the resolution uses `"csharp"`
as-is instead of the `"javascript"` fallback (JS `||` only falls back on
falsy values). -/
theorem C8_counterexample :
    (isRecognizedLanguageTag "csharp" = false) ∧
    (effectiveSourceLang SourceSel.auto (some csharpAnalysis) = "csharp") ∧
    (effectiveSourceLang SourceSel.auto (some csharpAnalysis) ≠ "javascript") := by
  decide

/-- Claim C8 (amended): with the `'auto'` sentinel selected, the
orchestrator resolves the effective source language to the analysis's
`primaryLanguage` whenever that string is non-empty (recognized tag or
not), and to the fixed fallback `"javascript"` when the analysis is absent
or its value is the empty string; a fixed selection resolves to its own
tag.  The resolution is a total function — it never throws. -/
theorem C8_theorem (analysis : Option ProjectAnalysis) :
    (effectiveSourceLang SourceSel.auto none = "javascript") ∧
    (∀ a : ProjectAnalysis, a.primaryLanguage = "" →
      effectiveSourceLang SourceSel.auto (some a) = "javascript") ∧
    (∀ a : ProjectAnalysis, a.primaryLanguage ≠ "" →
      effectiveSourceLang SourceSel.auto (some a) = a.primaryLanguage) ∧
    (∀ l : Language, effectiveSourceLang (SourceSel.fixed l) analysis = l.tag) := by
  refine ⟨rfl, ?_, ?_, fun l => rfl⟩
  · intro a ha
    simp [effectiveSourceLang, ha]
  · intro a ha
    simp [effectiveSourceLang, ha]

/-- Witness for `C8_theorem`: an empty-string analysis falls back, a
non-empty unrecognized one is used as-is. -/
theorem C8_witness :
    ((emptyLangAnalysis.primaryLanguage = "") ∧ (csharpAnalysis.primaryLanguage ≠ "")) ∧
    (effectiveSourceLang SourceSel.auto (some emptyLangAnalysis) = "javascript") ∧
    (effectiveSourceLang SourceSel.auto (some csharpAnalysis)
      = csharpAnalysis.primaryLanguage) :=
  ⟨⟨by decide, by decide⟩,
   (C8_theorem none).2.1 emptyLangAnalysis (by decide),
   (C8_theorem none).2.2.1 csharpAnalysis (by decide)⟩

/-- Claim C9 (confirmed): calling the pipeline-engine project analyzer
with an empty file list fails — with the `EmptyProject` error
`"No files provided for analysis"` — before any Gateway call is attempted
(zero Gateway calls are made, whatever the Gateway would have answered). -/
theorem C9_theorem (service : Except String ProjectAnalysis) :
    ((analyzeProject [] service).result
      = Except.error "No files provided for analysis") ∧
    ((analyzeProject [] service).gatewayCalls = 0) :=
  ⟨rfl, rfl⟩

/-- Claim C10 (confirmed): for every completed batch run, whatever the
input files, history, analysis, settings, Gateway behaviour and clock, the
synthesized report's `mergesFound` field is the literal 0 — the
orchestrator never detects or counts merges. -/
theorem C10_theorem (files : List ProjectFile) (prev : List ConversionHistoryItem)
    (analysis : Option ProjectAnalysis) (sel : SourceSel) (tgt : Language)
    (autoSplit : Bool) (oracle : Nat → GatewayOutcome) (ts : String) :
    (runConversion files prev analysis sel tgt autoSplit oracle ts).report.mergesFound
      = 0 := rfl

end PolyGlot
